import Mathlib

/-!
Verification of the container-use Repository/Environment storage engine.

The definitions below are a shallow embedding of the Go sources of the
`repository` package (worktree materialization, change classification and
commit staging, git-notes state store and propagation) and of
`environment/remotes/local.go` (LocalRemote.Delete).  File names and
contents are modelled as `List Char` / `List Nat`; the filesystem visible
to the classifier is a finite directory tree; git subprocess calls are
modelled by explicit outcome fields and operation traces.
-/

/-! ## String helpers (Go `strings` package, ASCII fragment) -/

/-- ASCII whitespace recognized by Go's `strings.TrimSpace` on ASCII input. -/
def isSpaceChar (c : Char) : Bool :=
  c = ' ' || c = '\t' || c = '\n' || c = '\x0b' || c = '\x0c' || c = '\r'

/-- Go `strings.TrimSpace`: drop leading and trailing whitespace. -/
def trimSpace (s : List Char) : List Char :=
  ((s.dropWhile isSpaceChar).reverse.dropWhile isSpaceChar).reverse

/-- Go `strings.ToLower` (ASCII fragment; file names in the claims are ASCII). -/
def lowerStr (s : List Char) : List Char := s.map Char.toLower

/-- Helper for `splitLines`. -/
def splitLinesAux : List Char → List Char → List (List Char)
  | [], acc => [acc.reverse]
  | c :: rest, acc =>
    if c = '\n' then acc.reverse :: splitLinesAux rest []
    else splitLinesAux rest (c :: acc)

/-- Go `strings.Split(s, "\n")`. -/
def splitLines (s : List Char) : List (List Char) := splitLinesAux s []

/-- Go `strings.Contains(s, sub)`: `sub` occurs as a contiguous substring
of `s`. -/
def containsSub (sub : List Char) : List Char → Bool
  | [] => sub.isPrefixOf []
  | c :: rest => sub.isPrefixOf (c :: rest) || containsSub sub rest

/-! ## Change classifier: `Repository.shouldSkipFile` -/

/-- The `skipExtensions` list of `shouldSkipFile`, verbatim from the source. -/
def skipExtensions : List (List Char) :=
  [".tar".data, ".tar.gz".data, ".tgz".data, ".tar.bz2".data, ".tbz2".data,
   ".tar.xz".data, ".txz".data,
   ".zip".data, ".rar".data, ".7z".data, ".gz".data, ".bz2".data, ".xz".data,
   ".exe".data, ".bin".data, ".dmg".data, ".pkg".data, ".msi".data,
   ".jpg".data, ".jpeg".data, ".png".data, ".gif".data, ".bmp".data,
   ".tiff".data, ".svg".data,
   ".mp3".data, ".mp4".data, ".avi".data, ".mov".data, ".wmv".data,
   ".flv".data, ".mkv".data,
   ".pdf".data, ".doc".data, ".docx".data, ".xls".data, ".xlsx".data,
   ".ppt".data, ".pptx".data,
   ".so".data, ".dylib".data, ".dll".data, ".a".data, ".lib".data]

/-- The `skipPatterns` list of `shouldSkipFile`, verbatim from the source. -/
def skipPatterns : List (List Char) :=
  ["node_modules/".data, ".git/".data, "__pycache__/".data, ".DS_Store".data,
   "venv/".data, ".venv/".data, "env/".data, ".env/".data,
   "target/".data, "build/".data, "dist/".data, ".next/".data,
   "*.tmp".data, "*.temp".data, "*.cache".data, "*.log".data]

/-- The leading patterns of `skipPatterns` that contain no `*` character. -/
def nonGlobSkipPatterns : List (List Char) :=
  ["node_modules/".data, ".git/".data, "__pycache__/".data, ".DS_Store".data,
   "venv/".data, ".venv/".data, "env/".data, ".env/".data,
   "target/".data, "build/".data, "dist/".data, ".next/".data]

/-- The trailing patterns of `skipPatterns` that contain a `*` character. -/
def globSkipPatterns : List (List Char) :=
  ["*.tmp".data, "*.temp".data, "*.cache".data, "*.log".data]

/-- `Repository.shouldSkipFile`: lowercases the name, then checks the
extension denylist with `strings.HasSuffix` and the pattern denylist with
`strings.Contains` (literal substring, each pattern also lowercased). -/
def shouldSkipFile (fileName : List Char) : Bool :=
  skipExtensions.any (fun ext => ext.isSuffixOf (lowerStr fileName))
  || skipPatterns.any (fun pattern => containsSub (lowerStr pattern) (lowerStr fileName))

/-- `shouldSkipFile` with the `*`-containing patterns removed; used to state
that those patterns can only fire on names containing a literal `*`. -/
def shouldSkipFileNoGlob (fileName : List Char) : Bool :=
  skipExtensions.any (fun ext => ext.isSuffixOf (lowerStr fileName))
  || nonGlobSkipPatterns.any (fun pattern => containsSub (lowerStr pattern) (lowerStr fileName))

/-! ## Worktree filesystem model and `Repository.isBinaryFile` -/

mutual
/-- A node of the worktree filesystem as observed by `os.Stat`/`os.Open`:
a regular file carries its byte content and whether opening/reading it
succeeds; a directory carries named children (in lexical order, as
`filepath.Walk` visits them). -/
inductive Entry where
  | file (content : List Nat) (readable : Bool) : Entry
  | dir (children : EntryList) : Entry

/-- Named children of a directory. -/
inductive EntryList where
  | nil : EntryList
  | cons (name : List Char) (e : Entry) (rest : EntryList) : EntryList
end

/-- Look up a direct child by name. -/
def findChild : EntryList → List Char → Option Entry
  | .nil, _ => none
  | .cons n e rest, seg => if n = seg then some e else findChild rest seg

/-- Helper for `splitPath`. -/
def splitPathAux : List Char → List Char → List (List Char)
  | [], acc => [acc.reverse]
  | c :: rest, acc =>
    if c = '/' then acc.reverse :: splitPathAux rest []
    else splitPathAux rest (c :: acc)

/-- Split a relative path into its `/`-separated segments. -/
def splitPath (s : List Char) : List (List Char) := splitPathAux s []

/-- Resolve a segment path against the worktree root; `none` models a
failing `os.Stat`. -/
def lookupPath : Entry → List (List Char) → Option Entry
  | e, [] => some e
  | .file _ _, _ :: _ => none
  | .dir children, seg :: rest =>
    match findChild children seg with
    | none => none
    | some e => lookupPath e rest

/-- The 10 MB ceiling `maxFileSizeForTextCheck` of the source. -/
def maxFileSizeForTextCheck : Nat := 10 * 1024 * 1024

/-- Content-based classification of a resolved node, following
`Repository.isBinaryFile` step by step: directories are not binary; a file
larger than the ceiling is binary; an unreadable file is binary; a read
that yields no bytes (Go `Read` on an empty file returns `0, io.EOF`) is
binary; otherwise the file is binary iff the sampled 8000-byte prefix
contains a NUL byte.  The single `Read` of a local regular file is
modelled as returning the first `min 8000 size` bytes. -/
def isBinaryEntry : Entry → Bool
  | .dir _ => false
  | .file content readable =>
    if content.length > maxFileSizeForTextCheck then true
    else if readable = false then true
    else if content.length = 0 then true
    else (content.take 8000).contains 0

/-- `Repository.isBinaryFile`: stat the path (a failing stat classifies as
binary), then apply the content check. -/
def isBinaryFile (fs : Entry) (fileName : List Char) : Bool :=
  match lookupPath fs (splitPath fileName) with
  | none => true
  | some e => isBinaryEntry e

/-! ## Commit staging: `Repository.addNonBinaryFiles` -/

mutual
/-- `filepath.Walk` callback of `Repository.addFilesFromUntrackedDirectory`
applied to one visited node: a directory whose relative path (plus `/`)
matches a skip pattern is pruned with `SkipDir`; a file is staged when it
survives the name filter and the content filter.  The walk reads the
node's own data, which agrees with re-resolving its path in the tree. -/
def walkEntryAdds (rel : List Char) (e : Entry) : List (List Char) :=
  match e with
  | .file content readable =>
    if shouldSkipFile rel then []
    else if isBinaryEntry (.file content readable) then [] else [rel]
  | .dir children =>
    if shouldSkipFile (rel ++ "/".data) then []
    else walkChildrenAdds rel children

/-- Walk the children of a directory in order. -/
def walkChildrenAdds (rel : List Char) : EntryList → List (List Char)
  | .nil => []
  | .cons n e rest =>
    walkEntryAdds (rel ++ "/".data ++ n) e ++ walkChildrenAdds rel rest
end

/-- `Repository.addFilesFromUntrackedDirectory`: walk the untracked
directory and stage surviving files.  A missing directory makes
`filepath.Walk` fail, aborting the Go function with an error; the error
path stages nothing, which is what the model records. -/
def addFilesFromUntrackedDirectory (fs : Entry) (dirName : List Char) :
    List (List Char) :=
  match lookupPath fs (splitPath dirName) with
  | none => []
  | some e => walkEntryAdds dirName e

/-- Go `strings.TrimSuffix(s, "/")`. -/
def trimSuffixSlash (s : List Char) : List Char :=
  if ("/".data).isSuffixOf s then s.dropLast else s

/-- Body of the per-line loop of `Repository.addNonBinaryFiles`, applied to
the parsed index status, worktree status and trimmed file name of one
porcelain status line.  Returns the list of paths passed to `git add` for
this entry.  The case order is exactly the source's: empty name, name
filter, `??` untracked, `A` already staged, `D` deletion, default. -/
def processEntry (fs : Entry) (i w : Char) (fileName : List Char) :
    List (List Char) :=
  if fileName = [] then []
  else if shouldSkipFile fileName then []
  else if i = '?' ∧ w = '?' then
    if ("/".data).isSuffixOf fileName then
      addFilesFromUntrackedDirectory fs (trimSuffixSlash fileName)
    else if isBinaryFile fs fileName then [] else [fileName]
  else if i = 'A' then []
  else if i = 'D' ∨ w = 'D' then [fileName]
  else if isBinaryFile fs fileName then [] else [fileName]

/-- One iteration of `Repository.addNonBinaryFiles` on a raw status line:
empty lines and lines shorter than 3 characters are skipped; otherwise
`line[0]` is the index status, `line[1]` the worktree status and the
trimmed remainder the file name. -/
def processStatusLine (fs : Entry) (line : List Char) : List (List Char) :=
  match line with
  | i :: w :: c :: rest => processEntry fs i w (trimSpace (c :: rest))
  | _ => []

/-- `Repository.addNonBinaryFiles`: process the porcelain status lines in
order, collecting every path handed to `git add`. -/
def addNonBinaryFiles (fs : Entry) (lines : List (List Char)) :
    List (List Char) :=
  match lines with
  | [] => []
  | line :: rest => processStatusLine fs line ++ addNonBinaryFiles fs rest

/-- Observable effect of `Repository.commitWorktreeChanges`: the paths
staged with `git add` and the messages of the `git commit` invocations. -/
structure CommitOutcome where
  adds : List (List Char)
  commits : List (List Char)
deriving DecidableEq

/-- `Repository.commitWorktreeChanges`: read the porcelain status; if it is
blank, do nothing; otherwise stage via `addNonBinaryFiles` and run one
`git commit` with the two-part message `name\n\nexplanation`. -/
def commitWorktreeChanges (fs : Entry) (status : List Char)
    (name explanation : List Char) : CommitOutcome :=
  if trimSpace status = [] then ⟨[], []⟩
  else
    ⟨addNonBinaryFiles fs (splitLines (trimSpace status)),
     [name ++ "\n\n".data ++ explanation]⟩

/-! ## Note refs and `Repository.propagateGitNotes` (conflict recovery)

A note ref is modelled as its chain of note commits, newest first; a
destination ref fast-forwards under `git fetch ref:ref` exactly when its
current chain is an ancestor of (a suffix of) the fetched chain, and the
fetch is reported `[rejected]` otherwise. -/

/-- Whether fetching the mirror's note chain into a destination ref
holding `dest` succeeds (fast-forward); `none` is an absent ref, which
always fast-forwards. -/
def noteFetchOk (mirror : List Nat) (dest : Option (List Nat)) : Bool :=
  match dest with
  | none => true
  | some l => l.isSuffixOf mirror

/-- Outcome of `Repository.propagateGitNotes`: overall success, the final
content of the destination ref, how many fetches ran, and whether the
destination ref was deleted for retry. -/
structure PropagateNotesResult where
  ok : Bool
  destRef : Option (List Nat)
  fetchCalls : Nat
  deletedRef : Bool
deriving DecidableEq

/-- `Repository.propagateGitNotes`: fetch the note ref from the mirror
into the same ref of the source repository; if the fetch is `[rejected]`
(diverging destination content), delete the destination ref with
`git update-ref -d` (modelled as succeeding) and retry the fetch once. -/
def propagateGitNotes (mirror : List Nat) (dest : Option (List Nat)) :
    PropagateNotesResult :=
  if noteFetchOk mirror dest then ⟨true, some mirror, 1, false⟩
  else if noteFetchOk mirror none then ⟨true, some mirror, 2, true⟩
  else ⟨false, none, 2, true⟩

/-! ## Note store: `Repository.saveState` / `Repository.loadState`

The notes map sends a commit id to the note blob attached to it under the
state ref; `git notes add -f` overwrites, `git notes show` on a commit
without a note fails with a message containing "no note found". -/

/-- The state-ref notes of the mirror: commit id to note bytes. -/
def NotesMap : Type := List (Nat × List Nat)

/-- `git notes show` lookup: the note attached to commit `c`, if any. -/
def notesShow : NotesMap → Nat → Option (List Nat)
  | [], _ => none
  | (c', n) :: rest, c => if c' = c then some n else notesShow rest c

/-- `git notes add -f`: attach (overwriting) a note to a commit. -/
def notesAddForce (m : NotesMap) (c : Nat) (note : List Nat) : NotesMap :=
  (c, note) :: m

/-- `Repository.saveState`: serialize the environment state (the bytes
produced by `env.State`) into a temp file and attach it to the worktree's
HEAD commit with `git notes --ref container-use-state add -f -F`. -/
def saveState (m : NotesMap) (headCommit : Nat) (stateBytes : List Nat) :
    NotesMap :=
  notesAddForce m headCommit stateBytes

/-- Result of the `git notes --ref container-use-state show` subprocess:
the note bytes, or git's error text when the commit has no note. -/
def gitNotesShowCmd (m : NotesMap) (c : Nat) : Except (List Char) (List Nat) :=
  match notesShow m c with
  | some b => .ok b
  | none => .error "error: no note found for object.".data

/-- `Repository.loadState`: run `git notes show`; an error whose text
contains "no note found" yields `(nil, nil)`; any other error is
returned; otherwise the note bytes are returned. -/
def loadState (m : NotesMap) (c : Nat) : Except (List Char) (Option (List Nat)) :=
  match gitNotesShowCmd m c with
  | .ok b => .ok (some b)
  | .error e =>
    if containsSub "no note found".data e then .ok none else .error e

/-! ## `Repository.propagateToWorktree` as an operation trace -/

/-- The note refs of the source, as constants of the `repository` package. -/
def gitNotesLogRef : String := "container-use"

/-- The state note ref constant. -/
def gitNotesStateRef : String := "container-use-state"

/-- One externally visible step of the update protocol. -/
inductive GitOp where
  | exportEnv
  | commitChanges
  | saveStateNote
  | fetchEnvBranch (id : String)
  | propagateNotesRef (ref : String)
  | appendNote (ref : String)
deriving DecidableEq

/-- Per-step outcomes for one run of `Repository.propagateToWorktree`. -/
structure PropagateOutcomes where
  exportOk : Bool
  commitOk : Bool
  saveOk : Bool
  fetchOk : Bool
  propagateStateOk : Bool
deriving DecidableEq

/-- `Repository.propagateToWorktree`: export the container filesystem,
commit the worktree changes, save the state note, fetch the environment
branch into the source repository, and propagate the state note ref.
The trace lists the steps attempted, in order; the Bool is overall
success (the Go function returns nil). -/
def propagateToWorktree (id : String) (o : PropagateOutcomes) :
    List GitOp × Bool :=
  if o.exportOk = false then ([.exportEnv], false)
  else if o.commitOk = false then ([.exportEnv, .commitChanges], false)
  else if o.saveOk = false then
    ([.exportEnv, .commitChanges, .saveStateNote], false)
  else if o.fetchOk = false then
    ([.exportEnv, .commitChanges, .saveStateNote, .fetchEnvBranch id], false)
  else if o.propagateStateOk = false then
    ([.exportEnv, .commitChanges, .saveStateNote, .fetchEnvBranch id,
      .propagateNotesRef gitNotesStateRef], false)
  else
    ([.exportEnv, .commitChanges, .saveStateNote, .fetchEnvBranch id,
      .propagateNotesRef gitNotesStateRef], true)

/-- `Repository.addGitNote`: append a free-text note to the log ref on the
worktree, then propagate the log note ref.  This — not
`propagateToWorktree` — is where the log ref reaches the source
repository. -/
def addGitNote (appendOk : Bool) : List GitOp × Bool :=
  if appendOk = false then ([.appendNote gitNotesLogRef], false)
  else ([.appendNote gitNotesLogRef, .propagateNotesRef gitNotesLogRef], true)

/-! ## `Repository.initializeWorktree` -/

/-- The fixed config-directory layout of the `repository` package. -/
def cuGlobalConfigPath : String := "~/.config/container-use"

/-- The worktrees root under the config directory. -/
def cuWorktreePath : String := cuGlobalConfigPath ++ "/worktrees"

/-- Modelled from the spec: the `worktreePath` helper called by
`initializeWorktree` and `DeleteWorktree` is not among the provided
sources.  The spec fixes one worktree directory per environment ID at a
canonical path under the worktrees root of the fixed config-directory
layout, so the helper is the deterministic map from the ID to that
path. -/
def worktreePath (id : String) : String := cuWorktreePath ++ "/" ++ id

/-- `Repository.applyUncommittedChanges`: if the source repository status
is clean, do nothing; otherwise take `git diff HEAD` and, when the patch
is non-blank, pipe it to `git apply` in the worktree — a failing apply
returns the error `failed to apply patch: <cause>`.  The untracked-file
copy and the final commit of the copied changes are modelled as
succeeding.  Returns the error message, or `none` on success. -/
def applyUncommittedChanges (userStatus patch : List Char) (applyOk : Bool)
    (applyErrMsg : List Char) : Option (List Char) :=
  if trimSpace userStatus = [] then none
  else if trimSpace patch = [] then none
  else if applyOk then none
  else some ("failed to apply patch: ".data ++ applyErrMsg)

/-- Branch- or ref-mutating git operations of `initializeWorktree`. -/
inductive WtOp where
  | fetchRemote
  | pushCurrentBranch
  | worktreeAddNewBranch
  | worktreeAddExisting
  | fetchEnvBranch
  | trackEnvBranch
deriving DecidableEq

/-- The state `initializeWorktree` reads and writes: whether the worktree
directory, the fork branch and the user-repo tracking branch for the
environment ID exist, plus the inputs of `applyUncommittedChanges`. -/
structure WtWorld where
  worktreeExists : Bool
  branchInFork : Bool
  branchInUser : Bool
  userStatus : List Char
  patch : List Char
  applyOk : Bool
  applyErrMsg : List Char

/-- Result of one `initializeWorktree` call: the returned path or error,
the world afterwards, and the mutations performed. -/
structure WtResult where
  result : Except (List Char) String
  world : WtWorld
  ops : List WtOp

/-- `Repository.initializeWorktree`: if the worktree directory exists,
return its path immediately (idempotent fast path, no git commands run).
Otherwise fetch the container-use remote, force-push the current branch,
create the worktree — reusing the fork branch when `git show-ref` finds
it, else creating it with `-b` — then replay uncommitted changes (a
failure there aborts with `failed to apply uncommitted changes: <cause>`),
fetch the environment branch into the user repository and set up the
tracking branch when missing.  Git subprocess steps other than the patch
application are modelled as succeeding. -/
def initializeWorktree (id : String) (w : WtWorld) : WtResult :=
  if w.worktreeExists then ⟨.ok (worktreePath id), w, []⟩
  else
    let addOp := if w.branchInFork then WtOp.worktreeAddExisting
                 else WtOp.worktreeAddNewBranch
    let w₁ : WtWorld := { w with worktreeExists := true, branchInFork := true }
    let ops₁ := [WtOp.fetchRemote, WtOp.pushCurrentBranch, addOp]
    match applyUncommittedChanges w.userStatus w.patch w.applyOk w.applyErrMsg with
    | some e =>
      ⟨.error ("failed to apply uncommitted changes: ".data ++ e), w₁, ops₁⟩
    | none =>
      if w.branchInUser then
        ⟨.ok (worktreePath id), w₁, ops₁ ++ [WtOp.fetchEnvBranch]⟩
      else
        ⟨.ok (worktreePath id), { w₁ with branchInUser := true },
         ops₁ ++ [WtOp.fetchEnvBranch, WtOp.trackEnvBranch]⟩

/-! ## `LocalRemote.Delete` (environment/remotes/local.go) -/

/-- Outcome of an `os.Stat` call. -/
inductive StatOutcome where
  | found
  | notExist
  | statError
deriving DecidableEq

/-- The environment `LocalRemote.Delete` runs against: whether homedir
expansion of the config paths succeeds, the stat outcomes for the worktree
directory and the storage repo, and whether each cleanup step succeeds.
When the branch deletion fails, `branchMissingMsg` records whether the
error text reports the branch as missing. -/
structure DeleteWorld where
  homeOk : Bool
  worktreeStat : StatOutcome
  removeOk : Bool
  repoStat : StatOutcome
  pruneOk : Bool
  branchDeleteOk : Bool
  branchMissingMsg : Bool
deriving DecidableEq

/-- The warnings `LocalRemote.Delete` logs instead of failing. -/
inductive DeleteLog where
  | warnDeleteWorktree
  | warnStatWorktree
  | warnPrune
  | warnDeleteBranch
  | warnStatRepo
  | warnCompletedWithErrors
deriving DecidableEq

namespace LocalRemote

/-- `LocalRemote.Delete`: expand the repo and worktree paths (an error
there — home directory not resolvable — is returned); then remove the
worktree directory if it exists, prune worktree references and delete the
environment branch if the storage repo exists.  Every failure in those
cleanup steps is recorded in `lastErr` and logged as a warning, and the
function returns nil regardless. -/
def Delete (w : DeleteWorld) : Except (List Char) Unit × List DeleteLog :=
  if w.homeOk = false then
    (.error "failed to get repo path: cannot expand user-specific home dir".data, [])
  else
    let worktreeLog : List DeleteLog :=
      match w.worktreeStat with
      | .found => if w.removeOk then [] else [.warnDeleteWorktree]
      | .notExist => []
      | .statError => [.warnStatWorktree]
    let repoLog : List DeleteLog :=
      match w.repoStat with
      | .found =>
        (if w.pruneOk then [] else [.warnPrune]) ++
        (if w.branchDeleteOk then []
         else if w.branchMissingMsg then [] else [.warnDeleteBranch])
      | .notExist => []
      | .statError => [.warnStatRepo]
    let logs := worktreeLog ++ repoLog
    (.ok (), logs ++ (if logs = [] then [] else [.warnCompletedWithErrors]))

end LocalRemote

/-! ## Concrete instances used as counterexamples and witnesses -/

/-- A worktree holding the regular text file `notes.pdf` with content
`hi` (bytes 104, 105). -/
def fsC6 : Entry := .dir (.cons "notes.pdf".data (.file [104, 105] true) .nil)

/-- A worktree holding the empty regular file `a.txt`. -/
def fsTxtEmpty : Entry := .dir (.cons "a.txt".data (.file [] true) .nil)

/-- A worktree holding the one-byte text file `main.go` and the file
`blob.dat` whose single byte is NUL. -/
def fsC6w : Entry :=
  .dir (.cons "main.go".data (.file [104] true)
    (.cons "blob.dat".data (.file [0] true) .nil))

/-- A world about to create a worktree: directory and branches absent,
source repository clean. -/
def wC3 : WtWorld := ⟨false, false, false, [], [], true, []⟩

/-- A world with a dirty source repository whose patch fails to apply. -/
def wC8 : WtWorld :=
  ⟨false, false, false, " M a.go".data, "diff --git a b".data, false,
   "git command failed".data⟩

/-- A delete run in which every cleanup step fails. -/
def wC10 : DeleteWorld := ⟨true, .found, false, .found, false, false, false⟩

/-! ## Helper lemmas -/

/-- Only `*` itself lowercases to `*`. -/
theorem toLower_eq_star (c : Char) (h : c.toLower = '*') : c = '*' := by
  have h' : (if c.toNat ≥ 65 ∧ c.toNat ≤ 90 then Char.ofNat (c.toNat + 32)
             else c) = '*' := h
  split at h'
  · next hc =>
    exfalso
    obtain ⟨h1, h2⟩ := hc
    set n := c.toNat with hn
    interval_cases n <;> exact absurd h' (by decide)
  · exact h'

/-- A name without a literal `*` also has none after lowercasing. -/
theorem star_not_mem_lowerStr (name : List Char) (h : '*' ∉ name) :
    '*' ∉ lowerStr name := by
  intro hmem
  simp only [lowerStr, List.mem_map] at hmem
  obtain ⟨c, hc, hlow⟩ := hmem
  exact h (toLower_eq_star c hlow ▸ hc)

/-- A character of a substring found by `containsSub` occurs in the
searched string. -/
theorem mem_of_containsSub {sub s : List Char} {c : Char} (hc : c ∈ sub)
    (h : containsSub sub s = true) : c ∈ s := by
  induction s with
  | nil =>
    rw [containsSub, List.isPrefixOf_iff_prefix] at h
    exact absurd (h.subset hc) (List.not_mem_nil c)
  | cons a rest ih =>
    rw [containsSub, Bool.or_eq_true] at h
    rcases h with h | h
    · rw [List.isPrefixOf_iff_prefix] at h
      exact h.subset hc
    · exact List.mem_cons_of_mem a (ih h)

/-! ## Claim theorems -/

/-- C1, counterexample: the porcelain status line `D  archive.tar.gz`
reports the path `archive.tar.gz` as deleted, and its name matches the
skip extension `.tar.gz`; `addNonBinaryFiles` stages nothing for it, so a
deleted path matching a skip pattern is not staged for deletion — the
name-based skip filter runs before the deletion case. -/
theorem C1_counterexample :
    addNonBinaryFiles (.dir .nil) ["D  archive.tar.gz".data] = [] := by decide

/-- C1, amended: for every status entry reporting a deletion (index or
worktree status `D`, not untracked `??`, not already staged `A`) whose
file name survives the name-based skip filter, `addNonBinaryFiles` stages
the path — for any worktree content, i.e. without consulting the
content-based binary filter.  Deletion takes precedence over the
content-based filter only; the name-based filter runs first. -/
theorem C1_deletion_staged_unless_skipped (fs : Entry) (i w : Char)
    (fileName : List Char)
    (hname : fileName ≠ [])
    (hskip : shouldSkipFile fileName = false)
    (hq : ¬(i = '?' ∧ w = '?'))
    (hA : i ≠ 'A')
    (hD : i = 'D' ∨ w = 'D') :
    processEntry fs i w fileName = [fileName] := by
  unfold processEntry
  rw [if_neg hname, if_neg (by simp [hskip]), if_neg hq, if_neg hA, if_pos hD]

/-- C1, witness: a deleted text file not matching any skip pattern is
staged. -/
theorem C1_witness :
    processEntry (.dir .nil) 'D' ' ' "foo.txt".data = ["foo.txt".data] :=
  C1_deletion_staged_unless_skipped (.dir .nil) 'D' ' ' "foo.txt".data
    (by decide) (by decide) (by decide) (by decide) (Or.inl rfl)

/-- C4: saving state bytes on a commit and loading from that commit
returns exactly those bytes, and loading from a commit that has no state
note returns the empty result `(nil, nil)` rather than an error. -/
theorem C4_state_note_roundtrip (m : NotesMap) (c : Nat) (s : List Nat) :
    loadState (saveState m c s) c = .ok (some s)
    ∧ (∀ cNoNote, notesShow m cNoNote = none → loadState m cNoNote = .ok none) := by
  constructor
  · unfold loadState gitNotesShowCmd saveState notesAddForce notesShow
    simp
  · intro cNoNote h
    unfold loadState gitNotesShowCmd
    rw [h]
    have hmsg : containsSub "no note found".data
        "error: no note found for object.".data = true := by decide
    simp only [hmsg, if_pos]

/-- C4, witness: round trip on a concrete note map. -/
theorem C4_witness :
    loadState (saveState [] 5 [1, 2]) 5 = .ok (some [1, 2])
    ∧ loadState [] 7 = .ok none :=
  ⟨(C4_state_note_roundtrip [] 5 [1, 2]).1,
   (C4_state_note_roundtrip [] 5 [1, 2]).2 7 rfl⟩

/-- C5: when the fetch of a note ref from the mirror into the source
repository is rejected because the destination ref holds diverging
content, `propagateGitNotes` deletes the destination ref, retries the
fetch exactly once (two fetches in total), and the retry succeeds with
the destination ref equal to the propagated mirror content — last writer
wins. -/
theorem C5_conflict_recovery (mirror dest : List Nat)
    (h : noteFetchOk mirror (some dest) = false) :
    propagateGitNotes mirror (some dest) =
      ⟨true, some mirror, 2, true⟩ := by
  unfold propagateGitNotes
  rw [if_neg (by simp [h]), if_pos (show noteFetchOk mirror none = true from rfl)]

/-- C5, witness: a destination chain diverging from the mirror chain is
recovered by one delete-and-retry. -/
theorem C5_witness :
    propagateGitNotes [1] (some [2]) = ⟨true, some [1], 2, true⟩ :=
  C5_conflict_recovery [1] [2] (by decide)

/-- C7: when the worktree status is clean (blank after trimming),
`commitWorktreeChanges` stages nothing and performs zero commits. -/
theorem C7_noop_commit (fs : Entry) (status name explanation : List Char)
    (h : trimSpace status = []) :
    commitWorktreeChanges fs status name explanation = ⟨[], []⟩ := by
  unfold commitWorktreeChanges
  rw [if_pos h]

/-- C7, witness: a whitespace-only status is a no-op. -/
theorem C7_witness :
    commitWorktreeChanges (.dir .nil) "  \n".data "msg".data "why".data =
      ⟨[], []⟩ :=
  C7_noop_commit (.dir .nil) "  \n".data "msg".data "why".data (by decide)

/-- C2, counterexample: a fully successful run of `propagateToWorktree`
never propagates the log note ref — only the state ref reaches the source
repository during the update protocol. -/
theorem C2_counterexample :
    (propagateToWorktree "env-id" ⟨true, true, true, true, true⟩).2 = true
    ∧ GitOp.propagateNotesRef gitNotesLogRef ∉
        (propagateToWorktree "env-id" ⟨true, true, true, true, true⟩).1 := by
  constructor
  · rfl
  · decide

/-- C2, amended: after every successful run of `propagateToWorktree` the
state note ref — and only the state note ref — has been propagated from
the mirror to the source repository, as the last step of the exact trace
export, commit, save state, fetch branch, propagate state ref; the log
note ref is instead propagated by `addGitNote` each time a log entry is
appended. -/
theorem C2_state_ref_only (id : String) (o : PropagateOutcomes)
    (h : (propagateToWorktree id o).2 = true) :
    (propagateToWorktree id o).1 =
      [.exportEnv, .commitChanges, .saveStateNote, .fetchEnvBranch id,
       .propagateNotesRef gitNotesStateRef]
    ∧ GitOp.propagateNotesRef gitNotesLogRef ∉ (propagateToWorktree id o).1
    ∧ ∀ appendOk : Bool, (addGitNote appendOk).2 = true →
        (addGitNote appendOk).1.getLast? =
          some (.propagateNotesRef gitNotesLogRef) := by
  have hfst : (propagateToWorktree id o).1 =
      [.exportEnv, .commitChanges, .saveStateNote, .fetchEnvBranch id,
       .propagateNotesRef gitNotesStateRef] := by
    obtain ⟨e, c, s, f, p⟩ := o
    cases e <;> cases c <;> cases s <;> cases f <;> cases p <;>
      first
        | rfl
        | exact Bool.noConfusion h
  refine ⟨hfst, ?_, ?_⟩
  · intro hmem
    rw [hfst] at hmem
    simp only [List.mem_cons, List.not_mem_nil, or_false] at hmem
    rcases hmem with h1 | h1 | h1 | h1 | h1
    · exact GitOp.noConfusion h1
    · exact GitOp.noConfusion h1
    · exact GitOp.noConfusion h1
    · exact GitOp.noConfusion h1
    · injection h1 with h2
      exact absurd h2 (by decide)
  · intro appendOk hok
    cases appendOk
    · exact absurd hok (by decide)
    · rfl

/-- C2, witness: the amended statement at a successful concrete run. -/
theorem C2_witness :
    (propagateToWorktree "web/x" ⟨true, true, true, true, true⟩).1 =
      [.exportEnv, .commitChanges, .saveStateNote, .fetchEnvBranch "web/x",
       .propagateNotesRef gitNotesStateRef]
    ∧ GitOp.propagateNotesRef gitNotesLogRef ∉
        (propagateToWorktree "web/x" ⟨true, true, true, true, true⟩).1
    ∧ ∀ appendOk : Bool, (addGitNote appendOk).2 = true →
        (addGitNote appendOk).1.getLast? =
          some (.propagateNotesRef gitNotesLogRef) :=
  C2_state_ref_only "web/x" ⟨true, true, true, true, true⟩ rfl

/-- Fast path of `initializeWorktree`: an existing worktree directory is
returned unchanged with no git commands run. -/
theorem initializeWorktree_fast (id : String) (w : WtWorld)
    (hw : w.worktreeExists = true) :
    initializeWorktree id w = ⟨.ok (worktreePath id), w, []⟩ := by
  unfold initializeWorktree
  rw [if_pos hw]

/-- A successful `initializeWorktree` returns the canonical path and
leaves the worktree directory in existence. -/
theorem initializeWorktree_ok (id : String) (w : WtWorld) (p : String)
    (h : (initializeWorktree id w).result = .ok p) :
    p = worktreePath id
    ∧ ((initializeWorktree id w).world).worktreeExists = true := by
  cases hwe : w.worktreeExists
  case true =>
    rw [initializeWorktree_fast id w hwe] at h ⊢
    simp at h
    exact ⟨h.symm, hwe⟩
  case false =>
    unfold initializeWorktree at h ⊢
    rw [if_neg (by simp [hwe])] at h ⊢
    cases happ : applyUncommittedChanges w.userStatus w.patch w.applyOk
        w.applyErrMsg
    case none =>
      simp only [happ] at h ⊢
      cases hbu : w.branchInUser
      case true =>
        simp [hbu] at h ⊢
        exact h.symm
      case false =>
        simp [hbu] at h ⊢
        exact h.symm
    case some e =>
      simp only [happ] at h
      simp at h

/-- C3: whenever `initializeWorktree` succeeds it returns the canonical
worktree path of the environment ID, and invoking it again immediately
afterwards returns the same path, changes nothing, and performs no branch
or ref mutations (the worktree directory exists, so the fast path returns
at once). -/
theorem C3_initializeWorktree_idempotent (id : String) (w : WtWorld)
    (p : String)
    (h : (initializeWorktree id w).result = .ok p) :
    p = worktreePath id
    ∧ initializeWorktree id ((initializeWorktree id w).world) =
        ⟨.ok p, (initializeWorktree id w).world, []⟩ := by
  obtain ⟨hp1, hp2⟩ := initializeWorktree_ok id w p h
  refine ⟨hp1, ?_⟩
  rw [initializeWorktree_fast id ((initializeWorktree id w).world) hp2, hp1]

/-- C3, witness: creating a worktree from a clean world, then invoking
again, is a no-op returning the same path. -/
theorem C3_witness :
    worktreePath "web/x" = worktreePath "web/x"
    ∧ initializeWorktree "web/x" ((initializeWorktree "web/x" wC3).world) =
        ⟨.ok (worktreePath "web/x"), (initializeWorktree "web/x" wC3).world,
         []⟩ :=
  C3_initializeWorktree_idempotent "web/x" wC3 (worktreePath "web/x") rfl

/-- C8: when the worktree is being created, the source repository is
dirty, and the replay of its uncommitted changes fails to apply,
`initializeWorktree` returns the patch error wrapped with context and the
creation attempt does not succeed. -/
theorem C8_patch_failure_fatal (id : String) (w : WtWorld)
    (hwt : w.worktreeExists = false)
    (hstatus : trimSpace w.userStatus ≠ [])
    (hpatch : trimSpace w.patch ≠ [])
    (happly : w.applyOk = false) :
    (initializeWorktree id w).result =
      .error ("failed to apply uncommitted changes: ".data
        ++ ("failed to apply patch: ".data ++ w.applyErrMsg))
    ∧ ∀ p, (initializeWorktree id w).result ≠ .ok p := by
  have happc : applyUncommittedChanges w.userStatus w.patch w.applyOk
      w.applyErrMsg
      = some ("failed to apply patch: ".data ++ w.applyErrMsg) := by
    unfold applyUncommittedChanges
    rw [if_neg hstatus, if_neg hpatch, if_neg (by simp [happly])]
  constructor
  · simp [initializeWorktree, hwt, happc]
  · intro p
    simp [initializeWorktree, hwt, happc]

/-- C8, witness: a concrete failing patch application aborts creation
with the wrapped error. -/
theorem C8_witness :
    (initializeWorktree "web/x" wC8).result =
      .error ("failed to apply uncommitted changes: ".data
        ++ ("failed to apply patch: ".data ++ "git command failed".data)) :=
  (C8_patch_failure_fatal "web/x" wC8 rfl (by decide) (by decide) rfl).1

/-- C6, counterexample: the one-line status ` M notes.pdf` over a
worktree whose `notes.pdf` is a two-byte text file (under the ceiling, no
NUL) stages nothing, because the name matches the `.pdf` skip extension;
and the empty readable text file `a.txt` is classified binary (the single
read yields no bytes), so even as an untracked file it is not staged.  So
a text file under the size ceiling with no NUL bytes is not always
staged. -/
theorem C6_counterexample :
    addNonBinaryFiles fsC6 [" M notes.pdf".data] = []
    ∧ isBinaryFile fsTxtEmpty "a.txt".data = true
    ∧ addNonBinaryFiles fsTxtEmpty ["?? a.txt".data] = [] := by
  refine ⟨by decide, by decide, by decide⟩

/-- C6, amended: a file named `archive.tar.gz` is skipped for every
status and every content; a nonempty readable text file under the 10 MB
ceiling whose sampled prefix has no NUL byte and whose name survives the
name-based skip filter is staged when reported modified; a file whose
sampled 8000-byte prefix contains a NUL byte is classified binary and not
staged through the content-based path. -/
theorem C6_classifier_amended :
    (∀ (fs : Entry) (i w : Char),
        processEntry fs i w "archive.tar.gz".data = [])
    ∧ (∀ (fs : Entry) (name : List Char) (content : List Nat),
        name ≠ [] → shouldSkipFile name = false →
        lookupPath fs (splitPath name) = some (.file content true) →
        content ≠ [] → content.length ≤ maxFileSizeForTextCheck →
        (content.take 8000).contains 0 = false →
        processEntry fs ' ' 'M' name = [name])
    ∧ (∀ (fs : Entry) (name : List Char) (content : List Nat)
          (readable : Bool),
        lookupPath fs (splitPath name) = some (.file content readable) →
        (content.take 8000).contains 0 = true →
        isBinaryFile fs name = true
        ∧ (name ≠ [] → shouldSkipFile name = false →
            processEntry fs ' ' 'M' name = [])) := by
  refine ⟨?_, ?_, ?_⟩
  · intro fs i w
    unfold processEntry
    rw [if_neg (by decide),
      if_pos (by decide : shouldSkipFile "archive.tar.gz".data = true)]
  · intro fs name content hne hskip hlook hcne hsize hnul
    have hbin : isBinaryFile fs name = false := by
      unfold isBinaryFile
      rw [hlook]
      simp only [isBinaryEntry]
      rw [if_neg (by omega), if_neg (by simp),
        if_neg (by simpa using hcne)]
      exact hnul
    unfold processEntry
    rw [if_neg hne, if_neg (by simp [hskip]), if_neg (by decide),
      if_neg (by decide), if_neg (by decide), if_neg (by simp [hbin])]
  · intro fs name content readable hlook hnul
    have hbin : isBinaryFile fs name = true := by
      unfold isBinaryFile
      rw [hlook]
      simp only [isBinaryEntry]
      split
      · rfl
      · split
        · rfl
        · split
          · rfl
          · exact hnul
    refine ⟨hbin, ?_⟩
    intro hne hskip
    unfold processEntry
    rw [if_neg hne, if_neg (by simp [hskip]), if_neg (by decide),
      if_neg (by decide), if_neg (by decide), if_pos hbin]

/-- C6, witness: the amended statement at concrete files — a skipped
archive, a staged one-byte Go file, and a skipped NUL-containing file. -/
theorem C6_witness :
    processEntry fsC6w 'D' ' ' "archive.tar.gz".data = []
    ∧ processEntry fsC6w ' ' 'M' "main.go".data = ["main.go".data]
    ∧ isBinaryFile fsC6w "blob.dat".data = true
    ∧ processEntry fsC6w ' ' 'M' "blob.dat".data = [] := by
  refine ⟨C6_classifier_amended.1 fsC6w 'D' ' ',
    C6_classifier_amended.2.1 fsC6w "main.go".data [104] (by decide)
      (by decide) rfl (by decide) (by decide) (by decide), ?_, ?_⟩
  · exact (C6_classifier_amended.2.2 fsC6w "blob.dat".data [0] true rfl
      (by decide)).1
  · exact (C6_classifier_amended.2.2 fsC6w "blob.dat".data [0] true rfl
      (by decide)).2 (by decide) (by decide)

/-- C9: `shouldSkipFile` matches every skip pattern as a literal
case-insensitive substring, never as a glob: on any name without a
literal `*` character the four `*`-patterns contribute nothing (the
classifier agrees with the classifier stripped of them, so `debug.log` is
not skipped), while any name whose lowercased form contains one of the
directory patterns — such as `env/` inside `myenv/main.go` — anywhere in
it is skipped. -/
theorem C9_skip_patterns_literal :
    (∀ name : List Char, '*' ∉ name →
        shouldSkipFile name = shouldSkipFileNoGlob name)
    ∧ shouldSkipFile "debug.log".data = false
    ∧ (∀ pattern name : List Char, pattern ∈ skipPatterns →
        containsSub (lowerStr pattern) (lowerStr name) = true →
        shouldSkipFile name = true)
    ∧ shouldSkipFile "myenv/main.go".data = true := by
  refine ⟨?_, by decide, ?_, by decide⟩
  · intro name hstar
    unfold shouldSkipFile shouldSkipFileNoGlob
    have hsplit : skipPatterns = nonGlobSkipPatterns ++ globSkipPatterns := rfl
    rw [hsplit, List.any_append]
    have hglob : globSkipPatterns.any
        (fun pattern => containsSub (lowerStr pattern) (lowerStr name))
        = false := by
      rw [List.any_eq_false]
      intro p hp
      have hp4 : p = "*.tmp".data ∨ p = "*.temp".data ∨ p = "*.cache".data
          ∨ p = "*.log".data := by
        simpa [globSkipPatterns] using hp
      have hstarp : '*' ∈ lowerStr p := by
        rcases hp4 with rfl | rfl | rfl | rfl <;> decide
      intro hcon
      exact star_not_mem_lowerStr name hstar (mem_of_containsSub hstarp hcon)
    rw [hglob, Bool.or_false]
  · intro pattern name hp hcon
    unfold shouldSkipFile
    rw [Bool.or_eq_true]
    refine Or.inr ?_
    rw [List.any_eq_true]
    exact ⟨pattern, hp, hcon⟩

/-- C9, witness: the literal-substring semantics at concrete names. -/
theorem C9_witness :
    shouldSkipFile "x.tmp".data = shouldSkipFileNoGlob "x.tmp".data
    ∧ shouldSkipFile "myenv/main.go".data = true :=
  ⟨C9_skip_patterns_literal.1 "x.tmp".data (by decide),
   C9_skip_patterns_literal.2.2.1 "env/".data "myenv/main.go".data
     (by decide) (by decide)⟩

/-- C10: whenever the config paths expand (the home directory resolves),
`LocalRemote.Delete` returns nil for every combination of cleanup
outcomes — failures of worktree removal, worktree pruning and branch
deletion are only logged, so a caller never observes a Delete error from
them; a failed worktree removal, for instance, appears in the log. -/
theorem C10_delete_swallows_cleanup_errors (w : DeleteWorld)
    (h : w.homeOk = true) :
    (LocalRemote.Delete w).1 = .ok ()
    ∧ (w.worktreeStat = .found → w.removeOk = false →
        DeleteLog.warnDeleteWorktree ∈ (LocalRemote.Delete w).2) := by
  unfold LocalRemote.Delete
  rw [if_neg (by simp [h])]
  refine ⟨rfl, ?_⟩
  intro h1 h2
  simp [h1, h2]

/-- C10, witness: a delete run in which every cleanup step fails still
returns nil and logs the worktree-removal failure. -/
theorem C10_witness :
    (LocalRemote.Delete wC10).1 = .ok ()
    ∧ DeleteLog.warnDeleteWorktree ∈ (LocalRemote.Delete wC10).2 :=
  ⟨(C10_delete_swallows_cleanup_errors wC10 rfl).1,
   (C10_delete_swallows_cleanup_errors wC10 rfl).2 rfl rfl⟩
